import Mathlib

/-
Verification of the `multilistener` Go package (src/listener.go): a TCP
net.Listener that listens on several addresses at once, fans the accepted
connections into one stream, and tears everything down with a single Close.

The development has two layers.

Layer 1 is a functional embedding of the sequential code paths:
`Listen` (listener.go lines 29-58), `Listener.Close` (lines 94-107),
`Listener.Addr` / `Listener.Addrs` (lines 111-122) and the body of
`Listener.Accept` (lines 84-91) as a function of which `select` case fired.
The operating system is abstracted as an environment: the outcome of the
i-th `lc.Listen` call is `env i`, and the error a sub-listener's `Close`
returns is stored in the `Binder` value.

Layer 2 is a small-step transition system for the concurrent part: one
goroutine per sub-listener running the loop of `acceptLoop` (lines 60-80),
consumers blocked inside `Accept`, and `Close`.  Go's `select` statement
chooses uniformly at random among the cases that can proceed, so when
`closeCh` is closed and a rendezvous partner is simultaneously available the
hand-off case may still fire; the `Step` relation below therefore allows
both outcomes of every race, which is exactly the source of the temporal
counterexamples in this file.
-/

/-- Model of Go `error` values as used by this package: the `net.ErrClosed`
sentinel, opaque errors created with `errors.New` (identified by message),
wrapper errors whose `Unwrap` yields the inner error (such as the
`*net.OpError` a closed TCP listener produces), and the tree produced by
`errors.Join`. -/
inductive GoErr where
  | errClosed
  | errMsg (s : String)
  | op (e : GoErr)
  | joined (es : List GoErr)

/-- Go `errors.Join(a, b)`: nil operands are discarded; the result is nil
when nothing remains and otherwise a join error wrapping the survivors in
order. -/
def goJoin (a b : Option GoErr) : Option GoErr :=
  match ([a, b].filterMap id) with
  | [] => none
  | es => some (GoErr.joined es)

mutual
/-- Go `errors.Is(e, net.ErrClosed)`: true when the error is the sentinel
itself or wraps it (through `op` wrappers or a join). -/
def errIsClosed : GoErr → Bool
  | GoErr.errClosed => true
  | GoErr.errMsg _ => false
  | GoErr.op e => errIsClosed e
  | GoErr.joined es => errListClosed es
/-- Helper of `errIsClosed` over the children of a join error. -/
def errListClosed : List GoErr → Bool
  | [] => false
  | e :: es => errIsClosed e || errListClosed es
end

mutual
/-- Whether the error tree `e` lets a caller observe a leaf created as
`errors.New t`: true when such a leaf occurs anywhere in `e` (directly, in a
wrapper, or in a join).  This is the sense in which an aggregated error
"lets the caller observe" a contributing failure. -/
def errMentionsMsg : GoErr → String → Bool
  | GoErr.errClosed, _ => false
  | GoErr.errMsg s, t => s == t
  | GoErr.op e, t => errMentionsMsg e t
  | GoErr.joined es, t => errListMentionsMsg es t
/-- Helper of `errMentionsMsg` over the children of a join error. -/
def errListMentionsMsg : List GoErr → String → Bool
  | [], _ => false
  | e :: es, t => errMentionsMsg e t || errListMentionsMsg es t
end

/-- A caller who must decide "whole listener shut down" versus "one binder
degraded" from an error returned by `Accept` can only test it against the
sentinel, i.e. run `errors.Is(err, net.ErrClosed)`; an individual binder
error is distinguishable from the shutdown sentinel exactly when that test
rejects it. -/
def distinguishableFromClosed (e : GoErr) : Bool :=
  !errIsClosed e

/-- A bound sub-listener (`net.Listener` collaborator).  `addr` is the
bound address it reports through `Addr()` (retained after close), and
`closeErr` is the error its `Close()` call returns (`none` for a nil
error). -/
structure Binder where
  addr : String
  closeErr : Option GoErr

/-- The `Listener` struct of listener.go (lines 16-21).  The `conns`
channel carries no state between steps (it is an unbuffered rendezvous and
lives in the Layer 2 system), so the embedded state is the sub-listener
slice, the `closed` atomic flag, and whether `close(closeCh)` has
happened. -/
structure Listener where
  listeners : List Binder
  closed : Bool
  closeChClosed : Bool

/-- The error-collection loop of `Listener.Close` (lines 100-105):
`if cerr := ln.Close(); cerr != nil && err == nil { err = cerr }` keeps the
first non-nil close error and drops the rest. -/
def closeFirstErr (ls : List Binder) : Option GoErr :=
  ls.foldl (fun acc b => if acc.isNone && b.closeErr.isSome then b.closeErr else acc) none

/-- Everything observable about one call to `Listener.Close`: its return
value, the state afterwards, whether this call executed `close(l.closeCh)`,
and which sub-listeners this call closed, in order. -/
structure CloseEffects where
  ret : Option GoErr
  state : Listener
  broadcast : Bool
  closedBinders : List Binder

/-- `Listener.Close` (listener.go lines 94-107).  The
`closed.CompareAndSwap(false, true)` is the atomic test-and-set on the
`closed` field; the loser returns `net.ErrClosed` and does nothing, the
winner closes `closeCh` and then every sub-listener in registration order,
returning the first close error encountered. -/
def Listener.Close (l : Listener) : CloseEffects :=
  if l.closed then
    { ret := some GoErr.errClosed, state := l, broadcast := false, closedBinders := [] }
  else
    { ret := closeFirstErr l.listeners,
      state := { l with closed := true, closeChClosed := true },
      broadcast := true,
      closedBinders := l.listeners }

/-- `Listener.Addr` (lines 111-113) returns `l.listeners[0].Addr()`.  The
indexing panics on an empty slice, which the `Option` result records:
`none` is the panic case. -/
def Listener.Addr (l : Listener) : Option String :=
  l.listeners.head?.map Binder.addr

/-- `Listener.Addrs` (lines 116-122) returns the addresses of all
sub-listeners, in the slice's order. -/
def Listener.Addrs (l : Listener) : List String :=
  l.listeners.map Binder.addr

/-- Which case of the `select` in `Listener.Accept` (lines 85-90) fired:
either a pair was received from `l.conns`, or the `<-l.closeCh` case ran. -/
inductive SelectOutcome where
  | pair (conn : Option Nat) (err : Option GoErr)
  | closedCh

/-- The body of `Listener.Accept` (lines 84-91) as a function of the fired
`select` case: a received pair is returned as-is, the `closeCh` case
returns `(nil, net.ErrClosed)`.  Connections are identified by numbers. -/
def acceptSelect : SelectOutcome → Option Nat × Option GoErr
  | SelectOutcome.pair conn err => (conn, err)
  | SelectOutcome.closedCh => (none, some GoErr.errClosed)

/-- Everything observable about one call to `Listen`: the listener on
success, the returned error, how many `lc.Listen` bind calls were made,
which binders the failure path closed (in order), and how many accept
goroutines `acceptLoop` started. -/
structure ListenResult where
  listener : Option Listener
  err : Option GoErr
  bindsAttempted : Nat
  closedDuringTeardown : List Binder
  tasksStarted : Nat

/-- The bind loop of `Listen` (listener.go lines 45-53).  `env k` is the
outcome of the k-th `lc.Listen(ctx, "tcp", addr)` call; `acc` is
`mln.listeners` so far.  On a bind failure the code calls `mln.Close()` on
the partially-built listener and returns `nil, errors.Join(lerr, cerr)`. -/
def listenAux (env : Nat → Except GoErr Binder) : List String → Nat → List Binder → ListenResult
  | [], k, acc =>
      { listener := some { listeners := acc, closed := false, closeChClosed := false },
        err := none, bindsAttempted := k, closedDuringTeardown := [],
        tasksStarted := acc.length }
  | _ :: rest, k, acc =>
      match env k with
      | Except.error lerr =>
          let ce := Listener.Close { listeners := acc, closed := false, closeChClosed := false }
          { listener := none, err := goJoin (some lerr) ce.ret,
            bindsAttempted := k + 1, closedDuringTeardown := ce.closedBinders,
            tasksStarted := 0 }
      | Except.ok b => listenAux env rest (k + 1) (acc ++ [b])

/-- `Listen` (listener.go lines 29-58): empty input fails with
`errors.New("no addresses to listen on")` before any bind is attempted;
otherwise the addresses are bound in order and on full success one accept
goroutine per sub-listener is started. -/
def Listen (env : Nat → Except GoErr Binder) (addrs : List String) : ListenResult :=
  if addrs.length = 0 then
    { listener := none, err := some (GoErr.errMsg "no addresses to listen on"),
      bindsAttempted := 0, closedDuringTeardown := [], tasksStarted := 0 }
  else
    listenAux env addrs 0 []

/-- State of one per-binder goroutine of `acceptLoop` (listener.go lines
62-78): blocked inside `ln.Accept()`; holding the returned `(conn, err)`
pair inside the `select` that races the hand-off on `l.conns` against
`<-l.closeCh`; or returned. -/
inductive TaskState where
  | accepting
  | offering (oc : Option Nat) (oe : Option GoErr)
  | exited

/-- State of one caller of `Listener.Accept`: blocked inside the `select`
(lines 85-90); returned with a received pair; or returned
`(nil, net.ErrClosed)`. -/
inductive ConsState where
  | selecting
  | got (oc : Option Nat) (oe : Option GoErr)
  | gotClosed

/-- Observable events of an execution, in the order they happen:
`obtained i c` - task i's `ln.Accept()` returned connection c;
`obtainedErr i` - task i's `ln.Accept()` returned a non-nil error;
`delivered i oc isErr` - task i's send on `l.conns` was received by an
`Accept` caller (`isErr` records whether the pair's error was non-nil);
`closedConn c` - a task ran `conn.Close()` on the shutdown branch;
`shutdown` - `close(l.closeCh)` executed. -/
inductive Event where
  | obtained (i c : Nat)
  | obtainedErr (i : Nat)
  | delivered (i : Nat) (oc : Option Nat) (isErr : Bool)
  | closedConn (c : Nat)
  | shutdown
deriving DecidableEq

/-- The log entries `ln.Accept()` returning the pair `(oc, oe)` in task i
contributes. -/
def obtainedEvents (i : Nat) (oc : Option Nat) (oe : Option GoErr) : List Event :=
  (oc.toList.map (Event.obtained i)) ++ (oe.toList.map fun _ => Event.obtainedErr i)

/-- Global state of the concurrent system: the per-binder goroutines
(`ntasks` of them, one per sub-listener, spawned by `acceptLoop`), the
`Accept` callers (`ncons` of them so far; `newAccept` adds one), the
`closed` atomic flag, whether `close(closeCh)` has executed, the
connections closed by tasks on the shutdown branch, and the event log.
`binderAddrs` is the (immutable) list of bound addresses. -/
structure Sys where
  ntasks : Nat
  binderAddrs : List String
  tasks : Nat → TaskState
  ncons : Nat
  cons : Nat → ConsState
  closedFlag : Bool
  closeChClosed : Bool
  connsClosed : List Nat
  log : List Event

/-- One scheduling step of the system.  The two `select` statements (in
`acceptLoop` and in `Accept`) follow the Go specification: among the cases
that can proceed one is chosen uniformly at random, with no priority for
the `closeCh` case.  Hence `handoff` carries no `closeChClosed = false`
hypothesis: a rendezvous between an offering task and a selecting consumer
may fire even after `close(closeCh)`, and conversely `taskShutdown` /
`consShutdown` may fire as soon as `closeChClosed` holds.

`acceptReturns` is the environment resolving a blocked `ln.Accept()` call:
the sub-listener may produce a connection, or an error (for instance
because `Close` closed it, or it was closed out of band).  `closeCAS` and
`closeBroadcast` are the two halves of the winning `Close` call: the
successful `CompareAndSwap(false, true)` and the subsequent
`close(l.closeCh)` (lines 95-99).  `newAccept` is a new caller entering
`Accept`. -/
inductive Step : Sys → Sys → Prop where
  | acceptReturns (s : Sys) (i : Nat) (oc : Option Nat) (oe : Option GoErr)
      (hi : i < s.ntasks) (ht : s.tasks i = TaskState.accepting) :
      Step s { s with tasks := Function.update s.tasks i (TaskState.offering oc oe),
                      log := s.log ++ obtainedEvents i oc oe }
  | handoff (s : Sys) (i j : Nat) (oc : Option Nat) (oe : Option GoErr)
      (hi : i < s.ntasks) (hj : j < s.ncons)
      (ht : s.tasks i = TaskState.offering oc oe) (hc : s.cons j = ConsState.selecting) :
      Step s { s with
               tasks := Function.update s.tasks i
                 (if oe.isSome then TaskState.exited else TaskState.accepting),
               cons := Function.update s.cons j (ConsState.got oc oe),
               log := s.log ++ [Event.delivered i oc oe.isSome] }
  | taskShutdown (s : Sys) (i : Nat) (oc : Option Nat) (oe : Option GoErr)
      (hi : i < s.ntasks) (ht : s.tasks i = TaskState.offering oc oe)
      (hcl : s.closeChClosed = true) :
      Step s { s with tasks := Function.update s.tasks i TaskState.exited,
                      connsClosed := s.connsClosed ++ oc.toList,
                      log := s.log ++ oc.toList.map Event.closedConn }
  | consShutdown (s : Sys) (j : Nat) (hj : j < s.ncons)
      (hc : s.cons j = ConsState.selecting) (hcl : s.closeChClosed = true) :
      Step s { s with cons := Function.update s.cons j ConsState.gotClosed }
  | closeCAS (s : Sys) (h : s.closedFlag = false) :
      Step s { s with closedFlag := true }
  | closeBroadcast (s : Sys) (h1 : s.closedFlag = true) (h2 : s.closeChClosed = false) :
      Step s { s with closeChClosed := true, log := s.log ++ [Event.shutdown] }
  | newAccept (s : Sys) :
      Step s { s with cons := Function.update s.cons s.ncons ConsState.selecting,
                      ncons := s.ncons + 1 }

/-- Reachability: zero or more scheduling steps. -/
abbrev SysReach : Sys → Sys → Prop :=
  Relation.ReflTransGen Step

/-- The system right after a successful `Listen` on `addrs`: `nt` accept
goroutines all blocked in `ln.Accept()`, `nc` callers blocked in `Accept`,
flags clear, empty log. -/
def initSys (nt nc : Nat) (addrs : List String) : Sys :=
  { ntasks := nt, binderAddrs := addrs,
    tasks := fun _ => TaskState.accepting,
    ncons := nc, cons := fun _ => ConsState.selecting,
    closedFlag := false, closeChClosed := false,
    connsClosed := [], log := [] }

/-- Whether an event is the delivery of an actual connection (non-nil
`conn` handed to an `Accept` caller). -/
def isConnDelivery : Event → Bool
  | Event.delivered _ (some _) _ => true
  | _ => false

/-- Whether an event is the `close(closeCh)` broadcast. -/
def isShutdownEvent : Event → Bool
  | Event.shutdown => true
  | _ => false

/-- Whether, somewhere in the log, a connection is delivered to an `Accept`
caller at a point strictly after `close(closeCh)` has executed. -/
def connDeliveredAfterShutdown (log : List Event) : Bool :=
  (log.dropWhile fun e => !isShutdownEvent e).any isConnDelivery

/-- Accounting for a connection `c`: it is still held by a task inside the
hand-off `select`, or it has been handed to an `Accept` caller, or a task
has closed it.  The point is the fourth possibility - silently dropped
while open - never occurs. -/
def connAccounted (s : Sys) (c : Nat) : Prop :=
  (∃ i oe, s.tasks i = TaskState.offering (some c) oe) ∨
  (∃ i isErr, Event.delivered i (some c) isErr ∈ s.log) ∨
  c ∈ s.connsClosed

/-- Whether an event is a hand-off by task `i` of a pair whose error was
non-nil. -/
def isErrDeliveryBy (i : Nat) : Event → Bool
  | Event.delivered i2 _ true => decide (i2 = i)
  | _ => false

/-- How many `(conn, err)` pairs with a non-nil error task `i` has handed
to `Accept` callers. -/
def errDeliveredCount (i : Nat) (log : List Event) : Nat :=
  (log.filter (isErrDeliveryBy i)).length

/-- How many times `close(l.closeCh)` has executed. -/
def shutdownCount (log : List Event) : Nat :=
  log.countP isShutdownEvent

/-- One sub-listener, one `Accept` caller, nothing has happened yet. -/
def sRace0 : Sys := initSys 1 1 ["addr0"]

/-- Task 0's `ln.Accept()` returns connection 0; the task enters the
hand-off `select`. -/
def sRace1 : Sys :=
  { sRace0 with tasks := Function.update sRace0.tasks 0 (TaskState.offering (some 0) none),
                log := sRace0.log ++ obtainedEvents 0 (some 0) none }

/-- A `Close` call wins the `CompareAndSwap`. -/
def sRace2 : Sys := { sRace1 with closedFlag := true }

/-- The same `Close` call executes `close(l.closeCh)`: shutdown has
fired.  Task 0 is still inside its `select`, holding connection 0; the
consumer is still inside `Accept`'s `select`. -/
def sRace3 : Sys := { sRace2 with closeChClosed := true, log := sRace2.log ++ [Event.shutdown] }

/-- Both `select`s now have two ready cases each; the Go runtime may commit
the rendezvous, so connection 0 is handed to the `Accept` caller although
shutdown has already fired. -/
def sRace4 : Sys :=
  { sRace3 with tasks := Function.update sRace3.tasks 0 TaskState.accepting,
                cons := Function.update sRace3.cons 0 (ConsState.got (some 0) none),
                log := sRace3.log ++ [Event.delivered 0 (some 0) false] }

/-- The accept error a sub-listener closed by `Close` produces (an
`*net.OpError` wrapping the closed-network sentinel). -/
def bErr : GoErr := GoErr.op GoErr.errClosed

/-- One sub-listener, one `Accept` caller; task 0's `ln.Accept()` returns a
non-nil error, so the task enters the hand-off `select` holding the pair
`(nil, err)`. -/
def sErr1 : Sys :=
  { sRace0 with tasks := Function.update sRace0.tasks 0 (TaskState.offering none (some bErr)),
                log := sRace0.log ++ obtainedEvents 0 none (some bErr) }

/-- A `Close` call wins the `CompareAndSwap`. -/
def sErr2 : Sys := { sErr1 with closedFlag := true }

/-- The same `Close` call executes `close(l.closeCh)`. -/
def sErr3 : Sys := { sErr2 with closeChClosed := true, log := sErr2.log ++ [Event.shutdown] }

/-- Task 0's `select` takes the `<-l.closeCh` case (`conn` is nil, so
nothing is closed) and the task returns: it terminates having handed its
error pair to nobody. -/
def sErr4 : Sys :=
  { sErr3 with tasks := Function.update sErr3.tasks 0 TaskState.exited,
               connsClosed := sErr3.connsClosed ++ [],
               log := sErr3.log ++ [] }

/-- A binder whose close succeeds. -/
def bOk : Binder := { addr := "127.0.0.1:8080", closeErr := none }

/-- A binder whose close fails with the first close error. -/
def bFail1 : Binder := { addr := "127.0.0.1:8081", closeErr := some (GoErr.errMsg "close failure 1") }

/-- A binder whose close fails with the second close error. -/
def bFail2 : Binder := { addr := "127.0.0.1:8082", closeErr := some (GoErr.errMsg "close failure 2") }

/-- A live listener in which more than one sub-listener will fail to
close. -/
def lTwoFail : Listener := { listeners := [bFail1, bFail2], closed := false, closeChClosed := false }

/-- Bind environment for the construction-failure scenario: the first two
binds succeed, the third fails. -/
def envFail : Nat → Except GoErr Binder
  | 0 => Except.ok bOk
  | 1 => Except.ok bFail1
  | _ => Except.error (GoErr.errMsg "bind failure")

/-- Bind environment in which every bind succeeds, with distinct bound
addresses. -/
def envOk : Nat → Except GoErr Binder
  | 0 => Except.ok bOk
  | 1 => Except.ok bFail1
  | _ => Except.ok bFail2

/-- Induction principle: a property preserved by every step holds in every
reachable state. -/
theorem reach_inv {P : Sys → Prop} (hstep : ∀ s t, Step s t → P s → P t)
    {s t : Sys} (h : SysReach s t) (hs : P s) : P t := by
  induction h with
  | refl => exact hs
  | tail h1 h2 ih => exact hstep _ _ h2 ih

/-- The race schedule is a real execution: accept returns a connection,
`Close` runs to completion, and then the rendezvous still fires. -/
theorem reach_sRace4 : SysReach sRace0 sRace4 := by
  have h1 : Step sRace0 sRace1 :=
    Step.acceptReturns sRace0 0 (some 0) none Nat.one_pos rfl
  have h2 : Step sRace1 sRace2 := Step.closeCAS sRace1 rfl
  have h3 : Step sRace2 sRace3 := Step.closeBroadcast sRace2 rfl rfl
  have h4 : Step sRace3 sRace4 :=
    Step.handoff sRace3 0 0 (some 0) none Nat.one_pos Nat.one_pos rfl rfl
  exact Relation.ReflTransGen.head h1 (Relation.ReflTransGen.head h2
    (Relation.ReflTransGen.head h3 (Relation.ReflTransGen.head h4 Relation.ReflTransGen.refl)))

/-- The error-then-shutdown schedule is a real execution: accept returns an
error, `Close` runs to completion, and the task exits through the shutdown
branch without ever handing off its error pair. -/
theorem reach_sErr4 : SysReach sRace0 sErr4 := by
  have h1 : Step sRace0 sErr1 :=
    Step.acceptReturns sRace0 0 none (some bErr) Nat.one_pos rfl
  have h2 : Step sErr1 sErr2 := Step.closeCAS sErr1 rfl
  have h3 : Step sErr2 sErr3 := Step.closeBroadcast sErr2 rfl rfl
  have h4 : Step sErr3 sErr4 :=
    Step.taskShutdown sErr3 0 none (some bErr) Nat.one_pos rfl rfl
  exact Relation.ReflTransGen.head h1 (Relation.ReflTransGen.head h2
    (Relation.ReflTransGen.head h3 (Relation.ReflTransGen.head h4 Relation.ReflTransGen.refl)))

/-- The first-error fold of `Close` ignores everything once it holds an
error. -/
theorem foldl_closeErr_some (ls : List Binder) (e : GoErr) :
    ls.foldl (fun acc b => if acc.isNone && b.closeErr.isSome then b.closeErr else acc)
      (some e) = some e := by
  induction ls with
  | nil => rfl
  | cons b ls ih => simpa using ih

/-- `closeFirstErr` is exactly the first non-nil close error of the
sub-listeners, in registration order (`none` when every close succeeds). -/
theorem closeFirstErr_eq_head (ls : List Binder) :
    closeFirstErr ls = (ls.filterMap Binder.closeErr).head? := by
  induction ls with
  | nil => rfl
  | cons b ls ih =>
    cases hb : b.closeErr with
    | none =>
      simpa [closeFirstErr, List.foldl_cons, hb] using ih
    | some e =>
      simp [closeFirstErr, List.foldl_cons, hb, foldl_closeErr_some]

/-- If the bind loop ever returns a listener then it has accumulated one
sub-listener per remaining address. -/
theorem listenAux_success_length (env : Nat → Except GoErr Binder) :
    ∀ (rest : List String) (k : Nat) (acc : List Binder) (l : Listener),
      (listenAux env rest k acc).listener = some l →
      l.listeners.length = acc.length + rest.length := by
  intro rest
  induction rest with
  | nil =>
    intro k acc l h
    simp only [listenAux, Option.some.injEq] at h
    subst h
    simp
  | cons a rest ih =>
    intro k acc l h
    cases henv : env k with
    | error lerr =>
      simp only [listenAux, henv] at h
      exact Option.noConfusion h
    | ok b =>
      simp only [listenAux, henv] at h
      have h2 := ih (k + 1) (acc ++ [b]) l h
      simp at h2 ⊢
      omega

/-- Behaviour of the bind loop when all remaining binds succeed, yielding
the binders `pre` in order. -/
theorem listenAux_ok (env : Nat → Except GoErr Binder) :
    ∀ (pre : List Binder) (rest : List String) (k : Nat) (acc : List Binder),
      pre.length = rest.length →
      (∀ j, (hj : j < pre.length) → env (k + j) = Except.ok (pre.get ⟨j, hj⟩)) →
      listenAux env rest k acc =
        { listener := some { listeners := acc ++ pre, closed := false, closeChClosed := false },
          err := none, bindsAttempted := k + pre.length, closedDuringTeardown := [],
          tasksStarted := acc.length + pre.length } := by
  intro pre
  induction pre with
  | nil =>
    intro rest k acc hlen henv
    cases rest with
    | nil => simp [listenAux]
    | cons a r => simp at hlen
  | cons b pre ih =>
    intro rest k acc hlen henv
    cases rest with
    | nil => simp at hlen
    | cons a r =>
      have h0 : env k = Except.ok b := by
        have h := henv 0 (by simp)
        simpa using h
      have henv2 : ∀ j, (hj : j < pre.length) → env (k + 1 + j) = Except.ok (pre.get ⟨j, hj⟩) := by
        intro j hj
        have e : k + 1 + j = k + (j + 1) := by omega
        rw [e]
        have h := henv (j + 1) (by simpa using Nat.succ_lt_succ hj)
        simpa using h
      have ih2 := ih r (k + 1) (acc ++ [b]) (by simpa using hlen) henv2
      simp only [listenAux, h0]
      rw [ih2]
      congr 1 <;> simp
      all_goals omega

/-- Behaviour of the bind loop when the binds yield `pre` in order and then
the next bind fails: the partially-built listener (everything accumulated
so far plus `pre`) is closed in order, and the returned error is the join
of the bind error with `Close`'s result on that partial set. -/
theorem listenAux_fail (env : Nat → Except GoErr Binder) (lerr : GoErr) :
    ∀ (pre : List Binder) (rest : List String) (k : Nat) (acc : List Binder),
      pre.length < rest.length →
      (∀ j, (hj : j < pre.length) → env (k + j) = Except.ok (pre.get ⟨j, hj⟩)) →
      env (k + pre.length) = Except.error lerr →
      listenAux env rest k acc =
        { listener := none,
          err := goJoin (some lerr) (closeFirstErr (acc ++ pre)),
          bindsAttempted := k + pre.length + 1,
          closedDuringTeardown := acc ++ pre,
          tasksStarted := 0 } := by
  intro pre
  induction pre with
  | nil =>
    intro rest k acc hlen henv hfail
    cases rest with
    | nil => simp at hlen
    | cons a r =>
      have h0 : env k = Except.error lerr := by simpa using hfail
      simp [listenAux, h0, Listener.Close]
  | cons b pre ih =>
    intro rest k acc hlen henv hfail
    cases rest with
    | nil => simp at hlen
    | cons a r =>
      have h0 : env k = Except.ok b := by
        have h := henv 0 (by simp)
        simpa using h
      have henv2 : ∀ j, (hj : j < pre.length) → env (k + 1 + j) = Except.ok (pre.get ⟨j, hj⟩) := by
        intro j hj
        have e : k + 1 + j = k + (j + 1) := by omega
        rw [e]
        have h := henv (j + 1) (by simpa using Nat.succ_lt_succ hj)
        simpa using h
      have hfail2 : env (k + 1 + pre.length) = Except.error lerr := by
        have e : k + 1 + pre.length = k + (pre.length + 1) := by omega
        rw [e]
        simpa using hfail
      have ih2 := ih r (k + 1) (acc ++ [b]) (by simpa using Nat.lt_of_succ_lt_succ hlen) henv2 hfail2
      simp only [listenAux, h0]
      rw [ih2]
      congr 1 <;> simp
      all_goals omega


/-- A goroutine that has returned stays returned: no step revives an
exited task. -/
theorem step_exited_absorbing {s t : Sys} (h : Step s t) (i : Nat)
    (hex : s.tasks i = TaskState.exited) : t.tasks i = TaskState.exited := by
  cases h with
  | acceptReturns i2 oc oe hi ht =>
    by_cases hii : i = i2
    · subst hii; rw [hex] at ht; exact absurd ht (by simp)
    · exact (Function.update_noteq hii _ _).trans hex
  | handoff i2 j2 oc oe hi hj2 ht hc =>
    by_cases hii : i = i2
    · subst hii; rw [hex] at ht; exact absurd ht (by simp)
    · exact (Function.update_noteq hii _ _).trans hex
  | taskShutdown i2 oc oe hi ht hcl =>
    by_cases hii : i = i2
    · subst hii; exact Function.update_same _ _ _
    · exact (Function.update_noteq hii _ _).trans hex
  | consShutdown j2 hj2 hc hcl => exact hex
  | closeCAS h1 => exact hex
  | closeBroadcast h1 h2 => exact hex
  | newAccept => exact hex

/-- Each scheduling step changes the state of at most one task: whatever
one goroutine does leaves every other binder's goroutine untouched. -/
theorem step_tasks_frame {s t : Sys} (h : Step s t) (j k : Nat) (hjk : j ≠ k)
    (hch : t.tasks j ≠ s.tasks j) : t.tasks k = s.tasks k := by
  cases h with
  | acceptReturns i2 oc oe hi ht =>
    by_cases hki : k = i2
    · subst hki
      by_cases hji : j = k
      · exact absurd hji hjk
      · exact absurd (Function.update_noteq hji _ _) hch
    · exact Function.update_noteq hki _ _
  | handoff i2 j2 oc oe hi hj2 ht hc =>
    by_cases hki : k = i2
    · subst hki
      by_cases hji : j = k
      · exact absurd hji hjk
      · exact absurd (Function.update_noteq hji _ _) hch
    · exact Function.update_noteq hki _ _
  | taskShutdown i2 oc oe hi ht hcl =>
    by_cases hki : k = i2
    · subst hki
      by_cases hji : j = k
      · exact absurd hji hjk
      · exact absurd (Function.update_noteq hji _ _) hch
    · exact Function.update_noteq hki _ _
  | consShutdown j2 hj2 hc hcl => rfl
  | closeCAS h1 => rfl
  | closeBroadcast h1 h2 => rfl
  | newAccept => rfl

/-- No step touches the bound-address list. -/
theorem step_binderAddrs {s t : Sys} (h : Step s t) : t.binderAddrs = s.binderAddrs := by
  cases h <;> rfl

/-- The bound-address list is invariant along every execution: accept
activity, deliveries and shutdown never change it. -/
theorem reach_binderAddrs {s t : Sys} (h : SysReach s t) : t.binderAddrs = s.binderAddrs := by
  induction h with
  | refl => rfl
  | tail h1 h2 ih => rw [step_binderAddrs h2, ih]

/-- Shutdown events are counted piecewise. -/
theorem shutdownCount_append (l1 l2 : List Event) :
    shutdownCount (l1 ++ l2) = shutdownCount l1 + shutdownCount l2 := by
  simp [shutdownCount, List.countP_append]

/-- The events of an `ln.Accept()` return contain no shutdown event. -/
theorem shutdownCount_obtainedEvents (i : Nat) (oc : Option Nat) (oe : Option GoErr) :
    shutdownCount (obtainedEvents i oc oe) = 0 := by
  cases oc <;> cases oe <;>
    simp [obtainedEvents, shutdownCount, isShutdownEvent, Option.toList]

/-- Connection-close events are not shutdown events. -/
theorem shutdownCount_closedConns (l : List Nat) :
    shutdownCount (l.map Event.closedConn) = 0 := by
  induction l with
  | nil => rfl
  | cons c l ih => simp [shutdownCount, isShutdownEvent]

/-- The broadcast-once invariant: the log holds at most one shutdown event,
and none at all while `closeCh` is still open. -/
def CloseOnceInv (s : Sys) : Prop :=
  shutdownCount s.log ≤ 1 ∧ (s.closeChClosed = false → shutdownCount s.log = 0)

/-- Every step preserves the broadcast-once invariant: only `closeBroadcast`
appends a shutdown event, and it is enabled only while `closeCh` is still
open. -/
theorem step_closeOnce {s t : Sys} (h : Step s t) (hs : CloseOnceInv s) : CloseOnceInv t := by
  obtain ⟨h1, h2⟩ := hs
  cases h with
  | acceptReturns i2 oc oe hi ht =>
    refine ⟨?_, fun hcc => ?_⟩ <;>
      simp only [shutdownCount_append, shutdownCount_obtainedEvents]
    · omega
    · have := h2 hcc; omega
  | handoff i2 j2 oc oe hi hj2 ht hc =>
    have hone : shutdownCount [Event.delivered i2 oc oe.isSome] = 0 := by
      simp [shutdownCount, isShutdownEvent]
    refine ⟨?_, fun hcc => ?_⟩ <;> simp only [shutdownCount_append, hone]
    · omega
    · have := h2 hcc; omega
  | taskShutdown i2 oc oe hi ht hcl =>
    refine ⟨?_, fun hcc => ?_⟩ <;>
      simp only [shutdownCount_append, shutdownCount_closedConns]
    · omega
    · have := h2 hcc; omega
  | consShutdown j2 hj2 hc hcl => exact ⟨h1, h2⟩
  | closeCAS h1cas => exact ⟨h1, h2⟩
  | closeBroadcast hfl hcc =>
    have h0 := h2 hcc
    have hone : shutdownCount [Event.shutdown] = 1 := by
      simp [shutdownCount, isShutdownEvent]
    constructor
    · simp only [shutdownCount_append, hone]; omega
    · intro hfalse; exact absurd hfalse (by simp)
  | newAccept => exact ⟨h1, h2⟩

/-- Error deliveries are counted piecewise. -/
theorem errDeliveredCount_append (i : Nat) (l1 l2 : List Event) :
    errDeliveredCount i (l1 ++ l2) = errDeliveredCount i l1 + errDeliveredCount i l2 := by
  simp [errDeliveredCount, List.filter_append]

/-- The events of an `ln.Accept()` return contain no hand-off event. -/
theorem errDeliveredCount_obtainedEvents (i i2 : Nat) (oc : Option Nat) (oe : Option GoErr) :
    errDeliveredCount i (obtainedEvents i2 oc oe) = 0 := by
  cases oc <;> cases oe <;>
    simp [obtainedEvents, errDeliveredCount, isErrDeliveryBy, Option.toList]

/-- Connection-close events are not hand-off events. -/
theorem errDeliveredCount_closedConns (i : Nat) (l : List Nat) :
    errDeliveredCount i (l.map Event.closedConn) = 0 := by
  induction l with
  | nil => rfl
  | cons c l ih => simp [errDeliveredCount, isErrDeliveryBy]

/-- The count a single hand-off event contributes to task `i`. -/
theorem errDeliveredCount_single (i i2 : Nat) (oc : Option Nat) (b : Bool) :
    errDeliveredCount i [Event.delivered i2 oc b] =
      if b && decide (i2 = i) then 1 else 0 := by
  cases b with
  | false => simp [errDeliveredCount, isErrDeliveryBy]
  | true =>
    by_cases h : i2 = i <;> simp [errDeliveredCount, isErrDeliveryBy, h]

/-- The at-most-one-error invariant: each task has handed off at most one
error pair, and a task that has handed one off has exited. -/
def ErrOnceInv (s : Sys) : Prop :=
  ∀ i, errDeliveredCount i s.log ≤ 1 ∧
    (1 ≤ errDeliveredCount i s.log → s.tasks i = TaskState.exited)

/-- Every step preserves the at-most-one-error invariant: a task hands off
an error pair only from the `offering` state and exits immediately
afterwards (the `return` on `err != nil`, listener.go lines 73-76), and an
exited task never acts again. -/
theorem step_errOnce {s t : Sys} (h : Step s t) (hs : ErrOnceInv s) : ErrOnceInv t := by
  cases h with
  | acceptReturns i2 oc oe hi ht =>
    intro i
    obtain ⟨hle, himp⟩ := hs i
    have hcnt : errDeliveredCount i (s.log ++ obtainedEvents i2 oc oe)
        = errDeliveredCount i s.log := by
      simp [errDeliveredCount_append, errDeliveredCount_obtainedEvents]
    refine ⟨by simpa [hcnt] using hle, fun hone => ?_⟩
    rw [hcnt] at hone
    have hex := himp hone
    by_cases hii : i = i2
    · subst hii; rw [hex] at ht; exact absurd ht (by simp)
    · exact (Function.update_noteq hii _ _).trans hex
  | handoff i2 j2 oc oe hi hj2 ht hc =>
    intro i
    obtain ⟨hle, himp⟩ := hs i
    have hsingle := errDeliveredCount_single i i2 oc oe.isSome
    by_cases hii : i = i2
    · subst hii
      have hzero : errDeliveredCount i s.log = 0 := by
        by_contra hnz
        have hex := himp (by omega)
        rw [hex] at ht
        exact absurd ht (by simp)
      have hcnt : errDeliveredCount i (s.log ++ [Event.delivered i oc oe.isSome])
          = if oe.isSome then 1 else 0 := by
        rw [errDeliveredCount_append, hzero, hsingle]
        cases oe <;> simp
      constructor
      · rw [hcnt]; split <;> omega
      · intro hone
        rw [hcnt] at hone
        have hesome : oe.isSome = true := by
          by_contra hfalse
          simp only [Bool.not_eq_true] at hfalse
          rw [hfalse] at hone
          simp at hone
        exact (Function.update_same _ _ _).trans (by simp [hesome])
    · have hcnt : errDeliveredCount i (s.log ++ [Event.delivered i2 oc oe.isSome])
          = errDeliveredCount i s.log := by
        rw [errDeliveredCount_append, hsingle]
        have : decide (i2 = i) = false := by
          simp; omega
        rw [this]
        simp
      refine ⟨by simpa [hcnt] using hle, fun hone => ?_⟩
      rw [hcnt] at hone
      exact (Function.update_noteq hii _ _).trans (himp hone)
  | taskShutdown i2 oc oe hi ht hcl =>
    intro i
    obtain ⟨hle, himp⟩ := hs i
    have hcnt : errDeliveredCount i (s.log ++ oc.toList.map Event.closedConn)
        = errDeliveredCount i s.log := by
      simp [errDeliveredCount_append, errDeliveredCount_closedConns]
    refine ⟨by simpa [hcnt] using hle, fun hone => ?_⟩
    rw [hcnt] at hone
    by_cases hii : i = i2
    · subst hii; exact Function.update_same _ _ _
    · exact (Function.update_noteq hii _ _).trans (himp hone)
  | consShutdown j2 hj2 hc hcl => exact hs
  | closeCAS h1 => exact hs
  | closeBroadcast h1 h2 =>
    intro i
    obtain ⟨hle, himp⟩ := hs i
    have hcnt : errDeliveredCount i (s.log ++ [Event.shutdown])
        = errDeliveredCount i s.log := by
      rw [errDeliveredCount_append]
      simp [errDeliveredCount, isErrDeliveryBy]
    exact ⟨by simpa [hcnt] using hle, fun hone => himp (by rwa [hcnt] at hone)⟩
  | newAccept => exact hs

/-- An `obtained` event for connection `c` only arises from the task that
got `c` from its `ln.Accept()`. -/
theorem mem_obtainedEvents {i0 c i2 : Nat} {oc : Option Nat} {oe : Option GoErr}
    (h : Event.obtained i0 c ∈ obtainedEvents i2 oc oe) : i0 = i2 ∧ oc = some c := by
  cases oc with
  | none => cases oe <;> simp [obtainedEvents] at h
  | some c2 =>
    cases oe <;> simp [obtainedEvents] at h <;>
      exact ⟨h.1, by rw [h.2]⟩

/-- The no-leak invariant: every connection some task has obtained is still
held by a task inside its hand-off `select`, or was handed to an `Accept`
caller, or was closed by its task. -/
def AccountInv (s : Sys) : Prop :=
  ∀ c i0, Event.obtained i0 c ∈ s.log → connAccounted s c

/-- Every step preserves the no-leak invariant: a task leaves its hand-off
`select` only by delivering the pair or by closing the connection it holds
(listener.go lines 65-72). -/
theorem step_account {s t : Sys} (h : Step s t) (hs : AccountInv s) : AccountInv t := by
  cases h with
  | acceptReturns i2 oc oe hi ht =>
    intro c i0 hmem
    rcases List.mem_append.1 hmem with hold | hnew
    · rcases hs c i0 hold with ⟨i1, oe1, hheld⟩ | ⟨i1, b, hdel⟩ | hcl
      · by_cases hii : i1 = i2
        · subst hii; rw [hheld] at ht; exact absurd ht (by simp)
        · exact Or.inl ⟨i1, oe1, (Function.update_noteq hii _ _).trans hheld⟩
      · exact Or.inr (Or.inl ⟨i1, b, List.mem_append_left _ hdel⟩)
      · exact Or.inr (Or.inr hcl)
    · obtain ⟨hi0, hoc⟩ := mem_obtainedEvents hnew
      exact Or.inl ⟨i2, oe, (Function.update_same _ _ _).trans (by rw [hoc])⟩
  | handoff i2 j2 oc oe hi hj2 ht hc =>
    intro c i0 hmem
    rcases List.mem_append.1 hmem with hold | hnew
    · rcases hs c i0 hold with ⟨i1, oe1, hheld⟩ | ⟨i1, b, hdel⟩ | hcl
      · by_cases hii : i1 = i2
        · subst hii
          have heq : TaskState.offering oc oe = TaskState.offering (some c) oe1 := by
            rw [← ht, hheld]
          have hoc : oc = some c := (TaskState.offering.inj heq).1
          refine Or.inr (Or.inl ⟨i1, oe.isSome, List.mem_append_right _ ?_⟩)
          rw [hoc]
          exact List.mem_singleton_self _
        · exact Or.inl ⟨i1, oe1, (Function.update_noteq hii _ _).trans hheld⟩
      · exact Or.inr (Or.inl ⟨i1, b, List.mem_append_left _ hdel⟩)
      · exact Or.inr (Or.inr hcl)
    · simp at hnew
  | taskShutdown i2 oc oe hi ht hcl2 =>
    intro c i0 hmem
    rcases List.mem_append.1 hmem with hold | hnew
    · rcases hs c i0 hold with ⟨i1, oe1, hheld⟩ | ⟨i1, b, hdel⟩ | hcl
      · by_cases hii : i1 = i2
        · subst hii
          have heq : TaskState.offering oc oe = TaskState.offering (some c) oe1 := by
            rw [← ht, hheld]
          have hoc : oc = some c := (TaskState.offering.inj heq).1
          refine Or.inr (Or.inr (List.mem_append_right _ ?_))
          rw [hoc]
          exact List.mem_singleton_self _
        · exact Or.inl ⟨i1, oe1, (Function.update_noteq hii _ _).trans hheld⟩
      · exact Or.inr (Or.inl ⟨i1, b, List.mem_append_left _ hdel⟩)
      · exact Or.inr (Or.inr (List.mem_append_left _ hcl))
    · cases hocc : oc <;> rw [hocc] at hnew <;> simp [Option.toList] at hnew
  | consShutdown j2 hj2 hc hcl => exact fun c i0 hmem => hs c i0 hmem
  | closeCAS h1 => exact fun c i0 hmem => hs c i0 hmem
  | closeBroadcast h1 h2 =>
    intro c i0 hmem
    rcases List.mem_append.1 hmem with hold | hnew
    · rcases hs c i0 hold with ⟨i1, oe1, hheld⟩ | ⟨i1, b, hdel⟩ | hcl
      · exact Or.inl ⟨i1, oe1, hheld⟩
      · exact Or.inr (Or.inl ⟨i1, b, List.mem_append_left _ hdel⟩)
      · exact Or.inr (Or.inr hcl)
    · simp at hnew
  | newAccept => exact fun c i0 hmem => hs c i0 hmem

/-- How a blocked `Accept` caller can leave its `select`: either the
`<-l.closeCh` case fired (it returns the closed sentinel) or it rendezvoused
with some task that was simultaneously offering a pair. -/
theorem step_cons_change {s t : Sys} (h : Step s t) (j : Nat)
    (hsel : s.cons j = ConsState.selecting) (hch : t.cons j ≠ ConsState.selecting) :
    t.cons j = ConsState.gotClosed ∨
      ∃ i oc oe, i < s.ntasks ∧ s.tasks i = TaskState.offering oc oe ∧
        t.cons j = ConsState.got oc oe := by
  cases h with
  | acceptReturns i2 oc oe hi ht => exact absurd hsel hch
  | handoff i2 j2 oc oe hi hj2 ht hc =>
    by_cases hjj : j = j2
    · subst hjj
      exact Or.inr ⟨i2, oc, oe, hi, ht, Function.update_same _ _ _⟩
    · exact absurd ((Function.update_noteq hjj _ _).trans hsel) hch
  | taskShutdown i2 oc oe hi ht hcl => exact absurd hsel hch
  | consShutdown j2 hj2 hc hcl =>
    by_cases hjj : j = j2
    · subst hjj
      exact Or.inl (Function.update_same _ _ _)
    · exact absurd ((Function.update_noteq hjj _ _).trans hsel) hch
  | closeCAS h1 => exact absurd hsel hch
  | closeBroadcast h1 h2 => exact absurd hsel hch
  | newAccept =>
    by_cases hjn : j = s.ncons
    · refine absurd ?_ hch
      subst hjn
      exact Function.update_same _ _ _
    · exact absurd ((Function.update_noteq hjn _ _).trans hsel) hch

/-- Claim C1, counterexample.  The claim says no connection is ever
delivered to an `Accept` caller after the shutdown signal has fired.  The
schedule `sRace0 → sRace4` is a real execution of the code in which task 0
obtains a connection, `Close` completes `close(l.closeCh)`, and the
rendezvous between the task's `select` (listener.go line 66) and the
consumer's `select` (line 86) still fires - Go's `select` gives the
`closeCh` case no priority - so the log shows a connection delivery
strictly after the shutdown event. -/
theorem C1_counterexample :
    SysReach sRace0 sRace4 ∧ connDeliveredAfterShutdown sRace4.log = true :=
  ⟨reach_sRace4, by decide⟩

/-- Claim C1, amended.  What the code does guarantee: no connection is ever
silently dropped unclosed.  In every reachable state, every connection some
task has obtained from its `ln.Accept()` is either still held by a task
inside the hand-off `select`, or was handed to an `Accept` caller, or was
closed by its task on the shutdown branch (listener.go lines 67-71).  A
delivery after shutdown can only happen to a caller simultaneously waiting
at the rendezvous; a task that takes the shutdown branch closes its
connection instead. -/
theorem C1_no_conn_leaked (nt nc : Nat) (a : List String) (s : Sys)
    (h : SysReach (initSys nt nc a) s) :
    ∀ c i0, Event.obtained i0 c ∈ s.log → connAccounted s c := by
  have hinv : AccountInv s := by
    refine reach_inv (fun s1 s2 hstep hs1 => step_account hstep hs1) h ?_
    intro c i0 hmem
    exact absurd hmem (by simp [initSys])
  exact hinv

/-- Claim C1, witness: the accounting theorem applied to the race execution
and connection 0, which was obtained by task 0. -/
theorem C1_no_conn_leaked_witness : connAccounted sRace4 0 :=
  C1_no_conn_leaked 1 1 ["addr0"] sRace4 reach_sRace4 0 0 (by decide)

/-- Claim C3, counterexample.  The claim says every `Accept` call returns
the closed sentinel, with no connection, from the moment shutdown begins.
In the race execution the `Accept` caller (consumer 0) is blocked at the
moment of close, shutdown fires (the log shows the shutdown event before
the delivery), and the caller nevertheless returns with connection 0
rather than the sentinel. -/
theorem C3_counterexample :
    SysReach sRace0 sRace4 ∧
      sRace4.log = [Event.obtained 0 0, Event.shutdown, Event.delivered 0 (some 0) false] ∧
      sRace4.cons 0 = ConsState.got (some 0) none ∧
      sRace4.closeChClosed = true :=
  ⟨reach_sRace4, rfl, rfl, rfl⟩

/-- Claim C3, amended.  What the code does guarantee: once shutdown has
fired, a blocked `Accept` is never stuck - the `<-l.closeCh` case of its
`select` is always enabled and returns the closed sentinel - and the only
other way it can return is by receiving a pair from a task that is
simultaneously offering one at the rendezvous (Go's `select` does not
prioritise the closed channel). -/
theorem C3_accept_after_close :
    (∀ s : Sys, ∀ j : Nat, s.closeChClosed = true → j < s.ncons →
      s.cons j = ConsState.selecting →
      Step s { s with cons := Function.update s.cons j ConsState.gotClosed }) ∧
    (∀ s t : Sys, ∀ j : Nat, Step s t → s.cons j = ConsState.selecting →
      t.cons j ≠ ConsState.selecting →
      (t.cons j = ConsState.gotClosed ∨
        ∃ i oc oe, i < s.ntasks ∧ s.tasks i = TaskState.offering oc oe ∧
          t.cons j = ConsState.got oc oe)) :=
  ⟨fun s j hcl hj hsel => Step.consShutdown s j hj hsel hcl,
   fun _ _ j hstep hsel hch => step_cons_change hstep j hsel hch⟩

/-- Claim C3, witness: after shutdown has fired, the consumer blocked in
`Accept` has the sentinel return enabled as a real step. -/
theorem C3_accept_after_close_witness :
    Step { initSys 1 1 ["addr0"] with closeChClosed := true }
      { { initSys 1 1 ["addr0"] with closeChClosed := true } with
          cons := Function.update (initSys 1 1 ["addr0"]).cons 0 ConsState.gotClosed } :=
  C3_accept_after_close.1 { initSys 1 1 ["addr0"] with closeChClosed := true } 0
    rfl Nat.one_pos rfl

/-- Claim C4, counterexample.  The claim says a task whose `ln.Accept()`
returns an error forwards exactly one `(nil, err)` pair and then
terminates.  In the execution `sRace0 → sErr4` task 0 obtains an error,
shutdown fires first, the task leaves through the `<-l.closeCh` branch,
and it terminates having forwarded nothing: the consumer never sees the
error. -/
theorem C4_counterexample :
    SysReach sRace0 sErr4 ∧ sErr4.tasks 0 = TaskState.exited ∧
      Event.obtainedErr 0 ∈ sErr4.log ∧ errDeliveredCount 0 sErr4.log = 0 :=
  ⟨reach_sErr4, rfl, by decide, by decide⟩

/-- Claim C4, amended.  What the code does guarantee: each task hands off
at most one error pair - and a task that has handed one off has exited
(the `return` at listener.go lines 73-76) and stays exited, so it never
retries and the consumer sees at most one error per binder; moreover every
step changes at most one task, so a failing binder's task leaves every
other binder's task untouched. -/
theorem C4_error_task_terminates :
    (∀ nt nc : Nat, ∀ a : List String, ∀ s : Sys, SysReach (initSys nt nc a) s →
      ∀ i, errDeliveredCount i s.log ≤ 1 ∧
        (1 ≤ errDeliveredCount i s.log → s.tasks i = TaskState.exited)) ∧
    (∀ s t : Sys, Step s t → ∀ i, s.tasks i = TaskState.exited →
      t.tasks i = TaskState.exited) ∧
    (∀ s t : Sys, Step s t → ∀ j k, j ≠ k → t.tasks j ≠ s.tasks j →
      t.tasks k = s.tasks k) := by
  refine ⟨fun nt nc a s h => ?_, fun s t hstep i => step_exited_absorbing hstep i,
    fun s t hstep j k => step_tasks_frame hstep j k⟩
  refine reach_inv (fun s1 s2 hstep hs1 => step_errOnce hstep hs1) h ?_
  intro i
  refine ⟨by simp [errDeliveredCount, initSys], fun h1 => ?_⟩
  exact absurd h1 (by simp [errDeliveredCount, initSys])

/-- Claim C4, witness: the at-most-one bound evaluated on the error
execution, in which task 0 obtained an error. -/
theorem C4_error_task_terminates_witness : errDeliveredCount 0 sErr4.log ≤ 1 :=
  (C4_error_task_terminates.1 1 1 ["addr0"] sErr4 reach_sErr4 0).1

/-- Claim C2 (confirmed).  `Close` is exactly-once and idempotent: the
call that finds the `closed` flag false performs the teardown - it
broadcasts the shutdown signal, closes every sub-listener in registration
order, and returns the first close error encountered (nil if none, which
is what `closeFirstErr` computes: the head of the non-nil close errors in
order) - while every call that finds the flag set returns the
`net.ErrClosed` sentinel and does nothing; in particular a `Close`
following any `Close` is such a no-op.  At the system level the shutdown
broadcast happens at most once in every execution. -/
theorem C2_close_exactly_once :
    (∀ l : Listener,
      (l.closed = false → l.Close =
        { ret := closeFirstErr l.listeners,
          state := { listeners := l.listeners, closed := true, closeChClosed := true },
          broadcast := true, closedBinders := l.listeners }) ∧
      (l.closed = true → l.Close =
        { ret := some GoErr.errClosed, state := l, broadcast := false, closedBinders := [] }) ∧
      (l.Close.state.Close =
        { ret := some GoErr.errClosed, state := l.Close.state, broadcast := false,
          closedBinders := [] }) ∧
      closeFirstErr l.listeners = (l.listeners.filterMap Binder.closeErr).head?) ∧
    (∀ nt nc : Nat, ∀ a : List String, ∀ s : Sys,
      SysReach (initSys nt nc a) s → shutdownCount s.log ≤ 1) := by
  constructor
  · intro l
    refine ⟨fun h => ?_, fun h => ?_, ?_, closeFirstErr_eq_head _⟩
    · simp [Listener.Close, h]
    · simp [Listener.Close, h]
    · by_cases hc : l.closed <;> simp [Listener.Close, hc]
  · intro nt nc a s h
    have hinv : CloseOnceInv s := by
      refine reach_inv (fun s1 s2 hstep hs1 => step_closeOnce hstep hs1) h ?_
      exact ⟨by simp [shutdownCount, initSys], fun _ => by simp [shutdownCount, initSys]⟩
    exact hinv.1

/-- Claim C2, witness: the teardown call on a live listener with two
failing sub-listeners returns the first close error after closing both,
and the shutdown broadcast count is bounded in the initial system. -/
theorem C2_close_exactly_once_witness :
    Listener.Close lTwoFail =
      { ret := some (GoErr.errMsg "close failure 1"),
        state := { listeners := lTwoFail.listeners, closed := true, closeChClosed := true },
        broadcast := true, closedBinders := lTwoFail.listeners } ∧
    shutdownCount (initSys 1 1 ["addr0"]).log ≤ 1 :=
  ⟨((C2_close_exactly_once.1 lTwoFail).1 rfl).trans (by rfl),
   C2_close_exactly_once.2 1 1 ["addr0"] (initSys 1 1 ["addr0"]) Relation.ReflTransGen.refl⟩

/-- Claim C5 (confirmed).  When the binds yield the binders `pre` in the
given order and the next bind fails, `Listen` stops at that failure (it
attempts exactly `pre.length + 1` binds), closes every binder bound so far
in order, returns no listener, and returns `errors.Join` of the bind error
with the result of closing the partially-built set (the first close error
encountered there, per `Close`'s contract). -/
theorem C5_partial_bind_failure (env : Nat → Except GoErr Binder) (addrs : List String)
    (pre : List Binder) (lerr : GoErr)
    (hlen : pre.length < addrs.length)
    (henv : ∀ j, (hj : j < pre.length) → env j = Except.ok (pre.get ⟨j, hj⟩))
    (hfail : env pre.length = Except.error lerr) :
    Listen env addrs =
      { listener := none,
        err := goJoin (some lerr) (closeFirstErr pre),
        bindsAttempted := pre.length + 1,
        closedDuringTeardown := pre,
        tasksStarted := 0 } := by
  have h := listenAux_fail env lerr pre addrs 0 [] hlen
    (fun j hj => by simpa using henv j hj) (by simpa using hfail)
  rw [Listen, if_neg (by omega)]
  simpa using h

/-- Claim C5, witness: three addresses, two successful binds, third bind
fails; both bound binders are closed in order and the returned error joins
the bind error with the close result. -/
theorem C5_partial_bind_failure_witness :
    Listen envFail ["x", "y", "z"] =
      { listener := none,
        err := some (GoErr.joined [GoErr.errMsg "bind failure", GoErr.errMsg "close failure 1"]),
        bindsAttempted := 3,
        closedDuringTeardown := [bOk, bFail1],
        tasksStarted := 0 } := by
  have h := C5_partial_bind_failure envFail ["x", "y", "z"] [bOk, bFail1]
    (GoErr.errMsg "bind failure") (by simp) ?_ rfl
  · rw [h]; rfl
  · intro j hj
    simp at hj
    interval_cases j <;> rfl

/-- Claim C6, counterexample.  The claim says that when `Close` meets
close errors from more than one sub-listener the returned error lets the
caller observe every contributing failure.  On a listener whose two
sub-listeners both fail to close, the return value is exactly the first
close error, and the second failure is nowhere in it: the error-collection
loop (listener.go line 102, `cerr != nil && err == nil`) drops it. -/
theorem C6_counterexample :
    lTwoFail.listeners.map Binder.closeErr =
      [some (GoErr.errMsg "close failure 1"), some (GoErr.errMsg "close failure 2")] ∧
    lTwoFail.Close.ret = some (GoErr.errMsg "close failure 1") ∧
    errMentionsMsg (GoErr.errMsg "close failure 1") "close failure 2" = false :=
  ⟨rfl, rfl, by decide⟩

/-- Claim C6, amended.  `Close` on a live listener surfaces exactly the
first non-nil sub-listener close error, in registration order (nil when
all closes succeed); later close errors are dropped from the return value,
although every sub-listener is still closed. -/
theorem C6_close_first_error_only (l : Listener) (h : l.closed = false) :
    l.Close.ret = (l.listeners.filterMap Binder.closeErr).head? ∧
      l.Close.closedBinders = l.listeners := by
  constructor
  · simp [Listener.Close, h, closeFirstErr_eq_head]
  · simp [Listener.Close, h]

/-- Claim C6, witness: the amended statement evaluated on the listener
with two failing sub-listeners. -/
theorem C6_close_first_error_only_witness :
    lTwoFail.Close.ret = (lTwoFail.listeners.filterMap Binder.closeErr).head? ∧
      lTwoFail.Close.closedBinders = lTwoFail.listeners :=
  C6_close_first_error_only lTwoFail rfl

/-- Claim C7, counterexample.  The claim says the closed sentinel is
distinguishable from every error `Accept` surfaces for an individual
binder failure.  But `Accept` forwards a failed binder's error verbatim,
and a sub-listener closed out of band (exactly the repository's own
"remove sub-listener on accept error" test) makes `ln.Accept()` return an
`*net.OpError` wrapping the closed-network sentinel - an error the only
available sentinel test, `errors.Is(err, net.ErrClosed)`, accepts just as
it accepts the shutdown sentinel itself.  Such a binder failure is
therefore indistinguishable from whole-listener shutdown. -/
theorem C7_counterexample :
    acceptSelect (SelectOutcome.pair none (some bErr)) = (none, some bErr) ∧
    distinguishableFromClosed bErr = false ∧
    acceptSelect SelectOutcome.closedCh = (none, some GoErr.errClosed) ∧
    distinguishableFromClosed GoErr.errClosed = false :=
  ⟨rfl, by decide, rfl, by decide⟩

/-- Claim C7, amended.  `Accept` returns the `net.ErrClosed` sentinel
itself exactly on the shutdown path and forwards binder errors verbatim;
the sentinel test distinguishes a binder failure from shutdown only when
the binder's error does not itself wrap the sentinel - which an
out-of-band-closed sub-listener's error does. -/
theorem C7_sentinel_on_shutdown_path :
    (∀ oc oe, acceptSelect (SelectOutcome.pair oc oe) = (oc, oe)) ∧
    acceptSelect SelectOutcome.closedCh = (none, some GoErr.errClosed) ∧
    errIsClosed GoErr.errClosed = true ∧
    errIsClosed bErr = true :=
  ⟨fun oc oe => rfl, rfl, rfl, by decide⟩

/-- Claim C9 (confirmed).  `Listen` on an empty address collection fails
immediately with the "no addresses to listen on" error: no bind is
attempted, nothing is closed, and no accept goroutine is started. -/
theorem C9_empty_input (env : Nat → Except GoErr Binder) :
    Listen env [] =
      { listener := none, err := some (GoErr.errMsg "no addresses to listen on"),
        bindsAttempted := 0, closedDuringTeardown := [], tasksStarted := 0 } :=
  rfl

/-- Claim C8 (confirmed).  On a successful construction from binds that
yield the binders `pre` in the caller-supplied order, the listener's
sub-listener slice is exactly `pre`; `Addrs` returns the bound addresses
in exactly that input order and `Addr` returns the first of them; both are
unchanged by `Close` (the binders retain their address), and no scheduling
step of the concurrent system - accept activity, deliveries, shutdown -
ever changes the bound-address list. -/
theorem C8_addr_addrs_order (env : Nat → Except GoErr Binder) (addrs : List String)
    (pre : List Binder)
    (hne : addrs ≠ [])
    (hlen : pre.length = addrs.length)
    (henv : ∀ j, (hj : j < pre.length) → env j = Except.ok (pre.get ⟨j, hj⟩)) :
    (Listen env addrs).listener =
      some { listeners := pre, closed := false, closeChClosed := false } ∧
    Listener.Addrs { listeners := pre, closed := false, closeChClosed := false } =
      pre.map Binder.addr ∧
    Listener.Addr { listeners := pre, closed := false, closeChClosed := false } =
      (pre.map Binder.addr).head? ∧
    (∀ l : Listener, l.Close.state.Addrs = l.Addrs ∧ l.Close.state.Addr = l.Addr) ∧
    (∀ s t : Sys, SysReach s t → t.binderAddrs = s.binderAddrs) := by
  refine ⟨?_, rfl, ?_, ?_, fun s t h => reach_binderAddrs h⟩
  · have h := listenAux_ok env pre addrs 0 [] hlen (fun j hj => by simpa using henv j hj)
    rw [Listen, if_neg (by simpa using hne)]
    rw [h]
    simp
  · simp [Listener.Addr, List.head?_map]
  · intro l
    by_cases hc : l.closed <;> simp [Listener.Close, hc, Listener.Addrs, Listener.Addr]

/-- Claim C8, witness: three successful binds; the listener holds the
three binders in input order. -/
theorem C8_addr_addrs_order_witness :
    (Listen envOk ["x", "y", "z"]).listener =
      some { listeners := [bOk, bFail1, bFail2], closed := false, closeChClosed := false } := by
  refine (C8_addr_addrs_order envOk ["x", "y", "z"] [bOk, bFail1, bFail2]
    (by simp) (by simp) ?_).1
  intro j hj
  simp at hj
  interval_cases j <;> rfl

/-- Claim C10 (confirmed).  A listener that `Listen` actually returned has
a non-empty sub-listener slice, so `Addr`'s access of `l.listeners[0]`
is in bounds (it returns a value, never the panic case), and this persists
through `Close`, which leaves the slice untouched. -/
theorem C10_addr_in_bounds (env : Nat → Except GoErr Binder) (addrs : List String)
    (l : Listener) (h : (Listen env addrs).listener = some l) :
    l.listeners ≠ [] ∧ (Listener.Addr l).isSome = true ∧
      l.Close.state.listeners = l.listeners ∧
      (Listener.Addr l.Close.state).isSome = true := by
  have hne : l.listeners ≠ [] := by
    by_cases hz : addrs.length = 0
    · rw [Listen, if_pos hz] at h
      exact absurd h (by simp)
    · rw [Listen, if_neg hz] at h
      have hlen := listenAux_success_length env addrs 0 [] l h
      intro hnil
      rw [hnil] at hlen
      simp at hlen
      omega
  have hst : l.Close.state.listeners = l.listeners := by
    by_cases hc : l.closed <;> simp [Listener.Close, hc]
  have haddr : (Listener.Addr l).isSome = true := by
    cases hl : l.listeners with
    | nil => exact absurd hl hne
    | cons b bs => simp [Listener.Addr, hl]
  refine ⟨hne, haddr, hst, ?_⟩
  cases hl : l.listeners with
  | nil => exact absurd hl hne
  | cons b bs => simp [Listener.Addr, hst, hl]

/-- Claim C10, witness: the single-address construction succeeds and its
`Addr` is defined, before and after `Close`. -/
theorem C10_addr_in_bounds_witness :
    ({ listeners := [bOk], closed := false, closeChClosed := false } : Listener).listeners ≠ [] ∧
    (Listener.Addr { listeners := [bOk], closed := false, closeChClosed := false }).isSome = true ∧
    ({ listeners := [bOk], closed := false, closeChClosed := false } : Listener).Close.state.listeners =
      ({ listeners := [bOk], closed := false, closeChClosed := false } : Listener).listeners ∧
    (Listener.Addr ({ listeners := [bOk], closed := false, closeChClosed := false } : Listener).Close.state).isSome = true :=
  C10_addr_in_bounds envOk ["x"] { listeners := [bOk], closed := false, closeChClosed := false } rfl
